import Mathlib

/-!
Shallow embedding of the dictation subsystem of the Echo-wve repository,
file src/zip/components/DictationButton.tsx.

The component state is the tuple of React refs plus the isDictating flag.
Machine-level handles (setTimeout ids, requestAnimationFrame ids, media
streams, audio contexts) are modelled as follows:

* the silence-timer ref stores the absolute deadline of the pending
  timeout (arm time + SILENCE_DURATION_MS), standing in for the opaque
  timeout id returned by setTimeout;
* the animation-frame ref stores an opaque numeric frame id;
* the media stream is modelled by its number of tracks;
* the audio context is modelled by its lifecycle state (running/closed);
* the speech recognizer is modelled by whether the service is started.

Side effects performed against the browser are recorded in an explicit
effect list so that claims about observable behaviour can be stated.
-/

namespace DictationButton

/-- Duration of silence in milliseconds before stopping dictation, source line 46. -/
def SILENCE_DURATION_MS : Nat := 2000

/-- AnalyserNode FFT size for audio processing, source line 48. -/
def FFT_SIZE : Nat := 256

/-- Threshold for silence detection based on average volume, source line 50. -/
def SILENCE_THRESHOLD : ℚ := 5

/-- Handle to the external speech recognition service: records whether the
service is currently started. -/
structure RecognizerH where
  running : Bool
  deriving DecidableEq, Repr

/-- Lifecycle state of the AudioContext held by audioContextRef. -/
inductive ACState where
  | running
  | closed
  deriving DecidableEq, Repr

/-- The refs and React state of the DictationButton component, source
lines 54-61: isDictating, recognitionRef, streamRef (modelled by its
track count), audioContextRef, silenceTimerRef (modelled by the pending
deadline), animationFrameRef. -/
structure DState where
  isDictating : Bool
  recognition : Option RecognizerH
  stream : Option Nat
  audioContext : Option ACState
  silenceTimer : Option Nat
  animationFrame : Option Nat
  deriving DecidableEq, Repr

/-- Observable actions the component performs against the browser.
recStop records a call to recognition.stop together with whether the
service was actually running (a call on a stopped service throws and the
component catches the exception, so succeeded=false is a no-op call). -/
inductive Effect where
  | recStop (succeeded : Bool)
  | cancelFrame (id : Nat)
  | clearTimer (id : Nat)
  | stopTrack (k : Nat)
  | closeContext
  | setDictating (b : Bool)
  | getUserMediaCall
  | alertShown
  | logged
  | armTimer (id : Nat)
  | scheduleFrame (id : Nat)
  | startRecognizer
  deriving DecidableEq, Repr

/-- Effects that actually release or change a session resource.  The two
remaining stop-path effects, a recognition.stop call that throws and is
caught (recStop false) and a redundant setDictating, are no-ops. -/
def isReleaseEffect : Effect → Bool
  | Effect.recStop b => b
  | Effect.cancelFrame _ => true
  | Effect.clearTimer _ => true
  | Effect.stopTrack _ => true
  | Effect.closeContext => true
  | _ => false

/-- stopDictation, source lines 67-98: stop the recognizer inside a
try/catch, cancel the animation frame, clear the silence timer, stop
every stream track, close the audio context unless already closed, and
set isDictating to false.  Returns the new state and the effect list. -/
def stopDictation (s : DState) : DState × List Effect :=
  let rstep :
      Option RecognizerH × List Effect :=
    match s.recognition with
    | some r =>
      if r.running then (some { running := false }, [Effect.recStop true])
      else (some r, [Effect.recStop false])
    | none => (none, [])
  let astep : Option Nat × List Effect :=
    match s.animationFrame with
    | some i => (none, [Effect.cancelFrame i])
    | none => (none, [])
  let tstep : Option Nat × List Effect :=
    match s.silenceTimer with
    | some i => (none, [Effect.clearTimer i])
    | none => (none, [])
  let sstep : Option Nat × List Effect :=
    match s.stream with
    | some n => (none, (List.range n).map Effect.stopTrack)
    | none => (none, [])
  let cstep : Option ACState × List Effect :=
    match s.audioContext with
    | some ACState.running => (none, [Effect.closeContext])
    | some ACState.closed => (some ACState.closed, [])
    | none => (none, [])
  ({ isDictating := false
     recognition := rstep.1
     stream := sstep.1
     audioContext := cstep.1
     silenceTimer := tstep.1
     animationFrame := astep.1 },
   rstep.2 ++ astep.2 ++ tstep.2 ++ sstep.2 ++ cstep.2 ++ [Effect.setDictating false])

/-- recognition.stop as a fallible primitive: per the source comment on
line 70, stop can throw if the service is already stopped. -/
def recStopPrim (r : RecognizerH) : Except String RecognizerH :=
  if r.running then Except.ok { running := false }
  else Except.error "InvalidStateError"

/-- AudioContext.close as a fallible primitive: closing an already closed
context raises an InvalidStateError. -/
def acClosePrim (a : ACState) : Except String ACState :=
  match a with
  | ACState.running => Except.ok ACState.closed
  | ACState.closed => Except.error "InvalidStateError"

/-- stopDictation with exception propagation made explicit: the
recognizer stop call sits inside try/catch (source line 71) so its error
is absorbed; the audio-context close sits behind the state guard on
source line 91 so the fallible close primitive is only reached on a
non-closed context.  Every other release step is an infallible null
check. -/
def stopDictationE (s : DState) : Except String (DState × List Effect) := do
  let rstep : Option RecognizerH × List Effect :=
    match s.recognition with
    | some r =>
      match recStopPrim r with
      | Except.ok r2 => (some r2, [Effect.recStop true])
      | Except.error _ => (some r, [Effect.recStop false])
    | none => (none, [])
  let astep : Option Nat × List Effect :=
    match s.animationFrame with
    | some i => (none, [Effect.cancelFrame i])
    | none => (none, [])
  let tstep : Option Nat × List Effect :=
    match s.silenceTimer with
    | some i => (none, [Effect.clearTimer i])
    | none => (none, [])
  let sstep : Option Nat × List Effect :=
    match s.stream with
    | some n => (none, (List.range n).map Effect.stopTrack)
    | none => (none, [])
  let cstep : Option ACState × List Effect ←
    match s.audioContext with
    | some a =>
      if a ≠ ACState.closed then do
        let _ ← acClosePrim a
        pure ((none : Option ACState), [Effect.closeContext])
      else
        pure (some a, ([] : List Effect))
    | none => pure (none, [])
  pure ({ isDictating := false
          recognition := rstep.1
          stream := sstep.1
          audioContext := cstep.1
          silenceTimer := tstep.1
          animationFrame := astep.1 },
        rstep.2 ++ astep.2 ++ tstep.2 ++ sstep.2 ++ cstep.2 ++ [Effect.setDictating false])

/-- The Active session state: UI shows dictating, the recognizer is
started, a stream and a running audio context are held, and the
monitoring loop has a scheduled frame.  A silence timer may or may not
be pending. -/
def ActiveState (s : DState) : Prop :=
  s.isDictating = true ∧ s.recognition = some { running := true } ∧
    s.stream.isSome = true ∧ s.audioContext = some ACState.running ∧
    s.animationFrame.isSome = true

instance (s : DState) : Decidable (ActiveState s) := by
  unfold ActiveState
  infer_instance

/-- Average volume of one time-domain frame, source lines 121-126: the
mean over the frame of the absolute deviation of each unsigned byte from
the midpoint 128. -/
def averageVolume (dataArray : List Nat) : ℚ :=
  ((dataArray.map fun b => |(b : ℤ) - 128|).sum : ℚ) / (dataArray.length : ℚ)

/-- Body of one monitorAudio tick, source lines 128-141, parametrised by
the tick time now and the computed averageVolume vol: above the
threshold any pending silence timer is cleared; at or below the
threshold a timer for now + SILENCE_DURATION_MS is armed unless one is
already pending; finally the next animation frame is scheduled. -/
def monitorAudioStep (now : Nat) (vol : ℚ) (s : DState) : DState × List Effect :=
  let tbranch : Option Nat × List Effect :=
    if vol > SILENCE_THRESHOLD then
      match s.silenceTimer with
      | some d => (none, [Effect.clearTimer d])
      | none => (none, [])
    else
      match s.silenceTimer with
      | some d => (some d, [])
      | none =>
        (some (now + SILENCE_DURATION_MS),
         [Effect.armTimer (now + SILENCE_DURATION_MS)])
  ({ s with silenceTimer := tbranch.1, animationFrame := some (now + 1) },
   tbranch.2 ++ [Effect.scheduleFrame (now + 1)])

/-- One full monitorAudio tick, source lines 118-142: read a frame,
compute the average volume, then run the decision body. -/
def monitorAudio (now : Nat) (dataArray : List Nat) (s : DState) : DState × List Effect :=
  monitorAudioStep now (averageVolume dataArray) s

/-- Environment of one startDictation call: the clock time at which the
first monitor tick runs, whether getUserMedia resolves, the number of
tracks of the granted stream, whether the AudioContext constructor
succeeds, whether building the source and analyser nodes succeeds, the
average volume seen by the first monitor tick, and whether
recognition.start returns without throwing. -/
structure StartEnv where
  now : Nat
  mediaOk : Bool
  streamTracks : Nat
  ctxOk : Bool
  nodesOk : Bool
  firstVolume : ℚ
  recStartOk : Bool

/-- An environment in which every acquisition step succeeds. -/
def StartEnv.allOk (env : StartEnv) : Prop :=
  env.mediaOk = true ∧ env.ctxOk = true ∧ env.nodesOk = true ∧ env.recStartOk = true

instance (env : StartEnv) : Decidable env.allOk := by
  unfold StartEnv.allOk
  infer_instance

/-- startDictation, source lines 100-152: return immediately when the
recognizer ref is null; otherwise optimistically set isDictating, then
inside try/catch acquire the stream, build the audio context and the
analysis nodes, run the first monitorAudio tick, and start the
recognizer.  Any failing step jumps to the catch block, which logs,
alerts the user, and runs stopDictation on everything acquired so
far. -/
def startDictation (env : StartEnv) (s : DState) : DState × List Effect :=
  match s.recognition with
  | none => (s, [])
  | some _ =>
    let s1 : DState := { s with isDictating := true }
    let pre : List Effect := [Effect.setDictating true, Effect.getUserMediaCall]
    if env.mediaOk = false then
      let cleanup := stopDictation s1
      (cleanup.1, pre ++ [Effect.logged, Effect.alertShown] ++ cleanup.2)
    else
      let s2 : DState := { s1 with stream := some env.streamTracks }
      if env.ctxOk = false then
        let cleanup := stopDictation s2
        (cleanup.1, pre ++ [Effect.logged, Effect.alertShown] ++ cleanup.2)
      else
        let s3 : DState := { s2 with audioContext := some ACState.running }
        if env.nodesOk = false then
          let cleanup := stopDictation s3
          (cleanup.1, pre ++ [Effect.logged, Effect.alertShown] ++ cleanup.2)
        else
          let tick := monitorAudioStep env.now env.firstVolume s3
          if env.recStartOk = false then
            let cleanup := stopDictation tick.1
            (cleanup.1, pre ++ tick.2 ++ [Effect.logged, Effect.alertShown] ++ cleanup.2)
          else
            ({ tick.1 with recognition := some { running := true } },
             pre ++ tick.2 ++ [Effect.startRecognizer])

/-- Discrete-event simulation state for the monitoring loop: the
component state together with the number of times the armed silence
timer has fired, running stopDictation. -/
structure Sim where
  ds : DState
  stopRuns : Nat
  deriving DecidableEq, Repr

/-- Fire the pending silence timer when its deadline has been reached by
time t: its callback is stopDictation, source line 137. -/
def fireIfDue (t : Nat) (sim : Sim) : Sim :=
  match sim.ds.silenceTimer with
  | some d =>
    if d ≤ t then { ds := (stopDictation sim.ds).1, stopRuns := sim.stopRuns + 1 }
    else sim
  | none => sim

/-- Deliver one scheduled event batch at the time of a tick: the timer
callback runs first if its deadline has passed, then the monitor tick
body runs, but only while an animation frame is still scheduled (a
cancelled loop receives no further ticks). -/
def simStep (tv : Nat × ℚ) (sim : Sim) : Sim :=
  let sim1 := fireIfDue tv.1 sim
  if sim1.ds.animationFrame.isSome then
    { sim1 with ds := (monitorAudioStep tv.1 tv.2 sim1.ds).1 }
  else sim1

/-- Run the monitoring-loop simulation over a chronological list of
ticks, each a pair of tick time and observed average volume. -/
def runSim (sim : Sim) (ticks : List (Nat × ℚ)) : Sim :=
  ticks.foldl (fun a tv => simStep tv a) sim

/-- Alternating volume sequence: tick k is strictly above the threshold
exactly when the parity test of k matches the phase, otherwise far
below it. -/
def altVol (phase : Bool) (k : Nat) : ℚ :=
  if (k % 2 == 0) = phase then 6 else 0

/-- Ticks every 1000 ms with volumes alternating above and below the
threshold, starting in the given phase. -/
def altTicks (phase : Bool) (n : Nat) : List (Nat × ℚ) :=
  (List.range n).map fun k => (1000 * k, altVol phase k)

/-- Process a list of volume samples through the monitor body with the
loop alive, threading the tick times and concatenating the emitted
effects.  Used to audit the setTimeout and clearTimeout discipline of
the monitoring loop. -/
def monitorRun (s : DState) (samples : List (Nat × ℚ)) : DState × List Effect :=
  samples.foldl
    (fun acc tv =>
      let r := monitorAudioStep tv.1 tv.2 acc.1
      (r.1, acc.2 ++ r.2))
    (s, [])

/-- One step of the pending-timer ledger: an armTimer effect adds a
pending timer, a clearTimer effect removes it, anything else leaves the
ledger alone. -/
def pendStep (acc : List Nat) (e : Effect) : List Nat :=
  match e with
  | Effect.armTimer d => acc ++ [d]
  | Effect.clearTimer d => acc.erase d
  | _ => acc

/-- Multiset of pending silence timers recovered from an effect trace. -/
def pendingTimers (effs : List Effect) : List Nat :=
  effs.foldl pendStep []

/-- The silence-timer ref agrees with a pending-timer ledger: the ledger
holds exactly the timer the ref points to, or nothing. -/
def timerMatches (s : DState) (pend : List Nat) : Prop :=
  match s.silenceTimer with
  | some d => pend = [d]
  | none => pend = []

/-- One entry of a SpeechRecognitionResultList, source lines 7-12: the
finality flag and the list of alternative transcripts, index 0 first.
Real result entries always carry at least one alternative; an absent
alternative reads as the empty transcript. -/
structure SpeechResult where
  isFinal : Bool
  alts : List String
  deriving DecidableEq, Repr

/-- The top transcript hypothesis of a result entry, the expression
event.results[i][0].transcript of source line 167. -/
def topTranscript (r : SpeechResult) : String := r.alts.headD ""

/-- Leading and trailing whitespace removal on character lists. -/
def trimChars (l : List Char) : List Char :=
  (((l.dropWhile Char.isWhitespace).reverse).dropWhile Char.isWhitespace).reverse

/-- The JavaScript String.prototype.trim operation used on source line
171, modelled with the Lean whitespace predicate. -/
def jsTrim (s : String) : String := String.mk (trimChars s.data)

/-- A string with no leading and no trailing whitespace character. -/
def isTrimmedStr (s : String) : Bool :=
  (s.data.head?.all fun c => !c.isWhitespace) &&
    (s.data.getLast?.all fun c => !c.isWhitespace)

/-- The recognition.onresult handler, source lines 163-173: fold over the
entries from the event resultIndex through the end of the list,
appending the top transcript of each final entry; when the accumulated
string is non-empty, call onDictation exactly once with its trimmed
value.  The returned option is the argument of that single call, none
when no call is made. -/
def onresult (resultIndex : Nat) (results : List SpeechResult) : Option String :=
  let finalTranscript :=
    (results.drop resultIndex).foldl
      (fun acc r => if r.isFinal then acc ++ topTranscript r else acc) ""
  if finalTranscript = "" then none else some (jsTrim finalTranscript)

/-- Concatenation of a list of strings in order. -/
def strJoin : List String → String
  | [] => ""
  | s :: rest => s ++ strJoin rest

/-- Modelled from the spec wording of the result-handler contract, for
refinement comparison with onresult: collect the top transcript of every
final entry in the scanned range, in result order; forward the trimmed
concatenation exactly when the concatenation is non-empty. -/
def specTranscript (resultIndex : Nat) (results : List SpeechResult) : Option String :=
  let segs := ((results.drop resultIndex).filter (fun r => r.isFinal)).map topTranscript
  let acc := strJoin segs
  if acc = "" then none else some (jsTrim acc)

/-- A concrete post-mount Active session state used by witnesses. -/
def activeDS : DState :=
  { isDictating := true
    recognition := some { running := true }
    stream := some 1
    audioContext := some ACState.running
    silenceTimer := none
    animationFrame := some 7 }

/-- A concrete post-mount Idle state used by witnesses: the recognizer
ref is populated, every session resource handle is null. -/
def mountedIdleDS : DState :=
  { isDictating := false
    recognition := some { running := false }
    stream := none
    audioContext := none
    silenceTimer := none
    animationFrame := none }

/-- The concrete Active state packaged as a simulation state with no
stop recorded yet. -/
def activeSim : Sim := { ds := activeDS, stopRuns := 0 }

/-- A concrete state whose recognizer ref is null, as before the mount
effect has run or on an unsupported browser. -/
def noRecDS : DState :=
  { isDictating := false
    recognition := none
    stream := none
    audioContext := none
    silenceTimer := none
    animationFrame := none }

/-- A concrete environment in which every acquisition step succeeds and
the first monitored frame is quiet. -/
def okEnv : StartEnv :=
  { now := 0
    mediaOk := true
    streamTracks := 1
    ctxOk := true
    nodesOk := true
    firstVolume := 0
    recStartOk := true }

/-- A concrete environment in which getUserMedia rejects. -/
def deniedEnv : StartEnv :=
  { now := 0
    mediaOk := false
    streamTracks := 0
    ctxOk := true
    nodesOk := true
    firstVolume := 0
    recStartOk := true }

/-- C9.  stopDictation never throws: in the exception-transparent model
every run of the stop path returns ok, and agrees with the total
function, for every state it can be called in, including before any
start, after a completed stop, and with the recognizer already
stopped. -/
theorem stopDictation_never_throws (s : DState) :
    stopDictationE s = Except.ok (stopDictation s) := by
  obtain ⟨d, r, st, ac, ti, af⟩ := s
  rcases r with _ | ⟨b⟩ <;>
    first
      | (rcases ac with _ | (_ | _) <;> rfl)
      | (rcases b with _ | _ <;> rcases ac with _ | (_ | _) <;> rfl)

/-- C1.  Stop is idempotent from Active: one stopDictation call from an
Active state nulls the animation-frame, silence-timer, media-stream and
audio-context handles and leaves the UI not dictating; a second call
returns the same state unchanged, and its only effects are a caught
failing recognizer-stop call and a redundant setDictating, neither of
which is a release action. -/
theorem stopDictation_idempotent_from_active (s : DState) (h : ActiveState s) :
    (stopDictation s).1.isDictating = false ∧
      (stopDictation s).1.animationFrame = none ∧
      (stopDictation s).1.silenceTimer = none ∧
      (stopDictation s).1.stream = none ∧
      (stopDictation s).1.audioContext = none ∧
      stopDictation (stopDictation s).1 =
        ((stopDictation s).1, [Effect.recStop false, Effect.setDictating false]) ∧
      [Effect.recStop false, Effect.setDictating false].filter isReleaseEffect = [] := by
  obtain ⟨h1, h2, h3, h4, h5⟩ := h
  obtain ⟨d, r, st, ac, ti, af⟩ := s
  simp only at h1 h2 h3 h4 h5
  subst h1 h2 h4
  obtain ⟨n, rfl⟩ := Option.isSome_iff_exists.mp h3
  obtain ⟨a, rfl⟩ := Option.isSome_iff_exists.mp h5
  rcases ti with _ | t <;> exact ⟨rfl, rfl, rfl, rfl, rfl, rfl, rfl⟩

/-- Witness for C1 at a concrete Active state. -/
theorem stopDictation_idempotent_from_active_witness :
    ActiveState activeDS ∧
      ((stopDictation activeDS).1.isDictating = false ∧
        (stopDictation activeDS).1.animationFrame = none ∧
        (stopDictation activeDS).1.silenceTimer = none ∧
        (stopDictation activeDS).1.stream = none ∧
        (stopDictation activeDS).1.audioContext = none ∧
        stopDictation (stopDictation activeDS).1 =
          ((stopDictation activeDS).1, [Effect.recStop false, Effect.setDictating false]) ∧
        [Effect.recStop false, Effect.setDictating false].filter isReleaseEffect = []) :=
  ⟨by decide, stopDictation_idempotent_from_active activeDS (by decide)⟩

/-- C10.  Calling startDictation while the recognizer ref is null returns
immediately: the state is unchanged and no effect is performed. -/
theorem startDictation_noop_without_recognizer (env : StartEnv) (s : DState)
    (h : s.recognition = none) : startDictation env s = (s, []) := by
  obtain ⟨d, r, st, ac, ti, af⟩ := s
  simp only at h
  subst h
  rfl

/-- Witness for C10 at a concrete state with a null recognizer ref. -/
theorem startDictation_noop_without_recognizer_witness :
    noRecDS.recognition = none ∧ startDictation okEnv noRecDS = (noRecDS, []) :=
  ⟨rfl, startDictation_noop_without_recognizer okEnv noRecDS rfl⟩

theorem stop_isDictating (s : DState) : (stopDictation s).1.isDictating = false := rfl

theorem stop_stream (s : DState) : (stopDictation s).1.stream = none := by
  unfold stopDictation
  cases s.stream <;> rfl

theorem stop_timer (s : DState) : (stopDictation s).1.silenceTimer = none := by
  unfold stopDictation
  cases s.silenceTimer <;> rfl

theorem stop_frame (s : DState) : (stopDictation s).1.animationFrame = none := by
  unfold stopDictation
  cases s.animationFrame <;> rfl

theorem stop_ac_of_ne (s : DState) (h : s.audioContext ≠ some ACState.closed) :
    (stopDictation s).1.audioContext = none := by
  unfold stopDictation
  rcases hac : s.audioContext with _ | (_ | _)
  · rfl
  · rfl
  · exact absurd hac h

theorem stop_recognition_of_some (s : DState) (r : RecognizerH)
    (h : s.recognition = some r) :
    (stopDictation s).1.recognition = some { running := false } := by
  obtain ⟨b⟩ := r
  unfold stopDictation
  rw [h]
  cases b <;> rfl

theorem startDictation_success_active (env : StartEnv) (s : DState) (r : RecognizerH)
    (hrec : s.recognition = some r) (henv : env.allOk) :
    ActiveState (startDictation env s).1 := by
  obtain ⟨hm, hc, hn, hr2⟩ := henv
  simp only [startDictation, hrec, hm, hc, hn, hr2, Bool.true_eq_false, if_false]
  exact ⟨rfl, rfl, rfl, rfl, rfl⟩

theorem startDictation_failure_shape (env : StartEnv) (s : DState) (r : RecognizerH)
    (hrec : s.recognition = some r) (hac : s.audioContext = none)
    (hfail : env.mediaOk = false ∨ env.ctxOk = false ∨ env.nodesOk = false ∨
      env.recStartOk = false) :
    ∃ (sX : DState) (pre post : List Effect),
      sX.recognition = some r ∧ sX.audioContext ≠ some ACState.closed ∧
        startDictation env s =
          ((stopDictation sX).1, pre ++ Effect.alertShown :: post) := by
  cases hm : env.mediaOk with
  | false =>
    refine ⟨{ s with isDictating := true },
      [Effect.setDictating true, Effect.getUserMediaCall, Effect.logged],
      (stopDictation { s with isDictating := true }).2, hrec, by simp [hac], ?_⟩
    simp [startDictation, hrec, hm]
  | true =>
    cases hc : env.ctxOk with
    | false =>
      refine ⟨{ s with isDictating := true, stream := some env.streamTracks },
        [Effect.setDictating true, Effect.getUserMediaCall, Effect.logged],
        (stopDictation { s with isDictating := true, stream := some env.streamTracks }).2,
        hrec, by simp [hac], ?_⟩
      simp [startDictation, hrec, hm, hc]
    | true =>
      cases hn : env.nodesOk with
      | false =>
        refine ⟨{ s with isDictating := true
                         stream := some env.streamTracks
                         audioContext := some ACState.running },
          [Effect.setDictating true, Effect.getUserMediaCall, Effect.logged],
          (stopDictation { s with isDictating := true
                                  stream := some env.streamTracks
                                  audioContext := some ACState.running }).2,
          hrec, by simp, ?_⟩
        simp [startDictation, hrec, hm, hc, hn]
      | true =>
        cases hr2 : env.recStartOk with
        | false =>
          refine ⟨(monitorAudioStep env.now env.firstVolume
              { s with isDictating := true
                       stream := some env.streamTracks
                       audioContext := some ACState.running }).1,
            [Effect.setDictating true, Effect.getUserMediaCall] ++
              (monitorAudioStep env.now env.firstVolume
                { s with isDictating := true
                         stream := some env.streamTracks
                         audioContext := some ACState.running }).2 ++ [Effect.logged],
            (stopDictation (monitorAudioStep env.now env.firstVolume
              { s with isDictating := true
                       stream := some env.streamTracks
                       audioContext := some ACState.running }).1).2,
            hrec, by simp [monitorAudioStep], ?_⟩
          simp [startDictation, hrec, hm, hc, hn, hr2]
        | true =>
          rcases hfail with hf | hf | hf | hf <;>
            first
              | (rw [hm] at hf; cases hf)
              | (rw [hc] at hf; cases hf)
              | (rw [hn] at hf; cases hf)
              | (rw [hr2] at hf; cases hf)

/-- C7.  Any acquisition failure during start (microphone permission
denied, audio graph construction failure, recognizer start failure)
surfaces a user-facing alert and runs the full stop path: the session
ends with the UI not dictating and the stream, audio-context,
silence-timer and animation-frame handles all null, and a subsequent
start attempt with every acquisition step succeeding reaches the Active
state. -/
theorem startDictation_failure_cleans_up (env env2 : StartEnv) (s : DState)
    (r : RecognizerH) (hrec : s.recognition = some r) (hac : s.audioContext = none)
    (hfail : env.mediaOk = false ∨ env.ctxOk = false ∨ env.nodesOk = false ∨
      env.recStartOk = false)
    (henv2 : env2.allOk) :
    (startDictation env s).1.isDictating = false ∧
      (startDictation env s).1.stream = none ∧
      (startDictation env s).1.audioContext = none ∧
      (startDictation env s).1.silenceTimer = none ∧
      (startDictation env s).1.animationFrame = none ∧
      ActiveState (startDictation env2 (startDictation env s).1).1 ∧
      Effect.alertShown ∈ (startDictation env s).2 := by
  obtain ⟨sX, pre, post, hr3, hac3, heq⟩ :=
    startDictation_failure_shape env s r hrec hac hfail
  rw [heq]
  exact ⟨stop_isDictating sX, stop_stream sX, stop_ac_of_ne sX hac3, stop_timer sX,
    stop_frame sX,
    startDictation_success_active env2 _ { running := false }
      (stop_recognition_of_some sX r hr3) henv2,
    by simp⟩

/-- Witness for C7: a concrete denied-permission start from the mounted
idle state, followed by a successful start. -/
theorem startDictation_failure_cleans_up_witness :
    mountedIdleDS.recognition = some { running := false } ∧
      mountedIdleDS.audioContext = none ∧
      (deniedEnv.mediaOk = false ∨ deniedEnv.ctxOk = false ∨ deniedEnv.nodesOk = false ∨
        deniedEnv.recStartOk = false) ∧
      okEnv.allOk ∧
      ((startDictation deniedEnv mountedIdleDS).1.isDictating = false ∧
        (startDictation deniedEnv mountedIdleDS).1.stream = none ∧
        (startDictation deniedEnv mountedIdleDS).1.audioContext = none ∧
        (startDictation deniedEnv mountedIdleDS).1.silenceTimer = none ∧
        (startDictation deniedEnv mountedIdleDS).1.animationFrame = none ∧
        ActiveState (startDictation okEnv (startDictation deniedEnv mountedIdleDS).1).1 ∧
        Effect.alertShown ∈ (startDictation deniedEnv mountedIdleDS).2) :=
  ⟨rfl, rfl, Or.inl rfl, by decide,
    startDictation_failure_cleans_up deniedEnv okEnv mountedIdleDS { running := false }
      rfl rfl (Or.inl rfl) (by decide)⟩

/-- Counterexample to C8 as stated: from a concrete Active state the stop
path does not null the recognizer handle. -/
theorem stopDictation_recognizer_not_nulled :
    (stopDictation activeDS).1.recognition ≠ none := by decide

/-- C8 amended.  The stop path nulls the media-stream, silence-timer and
animation-frame handles unconditionally and nulls the audio-context
handle whenever it releases it (only an externally already-closed
context is left non-null unreleased); the recognizer handle is not
nulled: it survives the stop with its service stopped, and the very next
successful start reuses it, restarting the same recognizer. -/
theorem stop_nulls_all_but_recognizer (s : DState) (env : StartEnv) (r : RecognizerH)
    (hrec : s.recognition = some r) (henv : env.allOk) :
    (stopDictation s).1.stream = none ∧
      (stopDictation s).1.silenceTimer = none ∧
      (stopDictation s).1.animationFrame = none ∧
      ((stopDictation s).1.audioContext = none ∨
        (s.audioContext = some ACState.closed ∧
          (stopDictation s).1.audioContext = some ACState.closed)) ∧
      (stopDictation s).1.recognition = some { running := false } ∧
      (startDictation env (stopDictation s).1).1.recognition =
        some { running := true } := by
  refine ⟨stop_stream s, stop_timer s, stop_frame s, ?_,
    stop_recognition_of_some s r hrec, ?_⟩
  · rcases hac : s.audioContext with _ | (_ | _)
    · exact Or.inl (stop_ac_of_ne s (by simp [hac]))
    · exact Or.inl (stop_ac_of_ne s (by simp [hac]))
    · exact Or.inr ⟨rfl, by simp [stopDictation, hac]⟩
  · exact (startDictation_success_active env _ { running := false }
      (stop_recognition_of_some s r hrec) henv).2.1

/-- Witness for the amended C8 at a concrete Active state. -/
theorem stop_nulls_all_but_recognizer_witness :
    activeDS.recognition = some { running := true } ∧ okEnv.allOk ∧
      ((stopDictation activeDS).1.stream = none ∧
        (stopDictation activeDS).1.silenceTimer = none ∧
        (stopDictation activeDS).1.animationFrame = none ∧
        ((stopDictation activeDS).1.audioContext = none ∨
          (activeDS.audioContext = some ACState.closed ∧
            (stopDictation activeDS).1.audioContext = some ACState.closed)) ∧
        (stopDictation activeDS).1.recognition = some { running := false } ∧
        (startDictation okEnv (stopDictation activeDS).1).1.recognition =
          some { running := true }) :=
  ⟨rfl, by decide,
    stop_nulls_all_but_recognizer activeDS okEnv { running := true } rfl (by decide)⟩

theorem strJoin_nil : strJoin [] = "" := rfl

theorem strJoin_cons (s : String) (l : List String) :
    strJoin (s :: l) = s ++ strJoin l := rfl

theorem foldl_final_eq (l : List SpeechResult) (acc : String) :
    l.foldl (fun a r => if r.isFinal then a ++ topTranscript r else a) acc =
      acc ++ strJoin ((l.filter fun r => r.isFinal).map topTranscript) := by
  induction l generalizing acc with
  | nil => simp [strJoin_nil]
  | cons x xs ih =>
    by_cases hx : x.isFinal
    · simp only [List.foldl_cons, hx, if_true, List.filter_cons, List.map_cons, strJoin_cons]
      rw [ih, String.append_assoc]
    · simp only [List.foldl_cons, hx, if_false, List.filter_cons, Bool.false_eq_true]
      rw [ih]

/-- C3.  The result handler agrees with the spec-side description: it
forwards exactly the trimmed concatenation, in result order, of the top
transcripts of the final entries in the scanned range, and makes the one
call exactly when that concatenation is non-empty; and the scanned range
is exactly the tail from resultIndex on, so entries before resultIndex
never influence the outcome. -/
theorem onresult_eq_specTranscript :
    (∀ (resultIndex : Nat) (results : List SpeechResult),
        onresult resultIndex results = specTranscript resultIndex results) ∧
      (∀ (pre rest : List SpeechResult),
        onresult pre.length (pre ++ rest) = onresult 0 rest) := by
  constructor
  · intro idx results
    unfold onresult specTranscript
    rw [foldl_final_eq]
    simp
  · intro pre rest
    unfold onresult
    rw [List.drop_left, List.drop_zero]

/-- Counterexample to C4 as stated: a single final segment consisting of
one space is a non-empty accumulation, so the handler does invoke the
callback, but with the empty string after trimming. -/
theorem onresult_empty_text_possible :
    onresult 0 [{ isFinal := true, alts := [" "] }] = some "" := by rfl

theorem mem_of_mem_dropWhileChar {p : α → Bool} {l : List α} {a : α}
    (h : a ∈ l.dropWhile p) : a ∈ l :=
  (List.dropWhile_suffix p).subset h

theorem forall_mem_dropWhile_iff (p : α → Bool) (l : List α) :
    (∀ a ∈ l.dropWhile p, p a = true) ↔ (∀ a ∈ l, p a = true) := by
  constructor
  · intro h a ha
    have hnil : l.dropWhile p = [] := by
      cases hd : l.dropWhile p with
      | nil => rfl
      | cons x xs =>
        have hx : p x = true := h x (by rw [hd]; exact List.mem_cons_self x xs)
        have hnot := List.head?_dropWhile_not p l
        rw [hd] at hnot
        simp only [List.head?_cons] at hnot
        rw [hx] at hnot
        cases hnot
    have hall := List.dropWhile_eq_nil_iff.mp hnil
    exact hall a ha
  · intro h a ha
    exact h a (mem_of_mem_dropWhileChar ha)

theorem dropWhile_getLast?_of_ne_nil (p : α → Bool) (l : List α)
    (h : l.dropWhile p ≠ []) : (l.dropWhile p).getLast? = l.getLast? := by
  conv_rhs => rw [← List.takeWhile_append_dropWhile (p := p) (l := l)]
  rw [List.getLast?_append]
  cases h2 : (l.dropWhile p).getLast? with
  | none => exact absurd (List.getLast?_eq_none_iff.mp h2) h
  | some x => rfl

theorem trimChars_head?_not_ws (l : List Char) (c : Char)
    (h : (trimChars l).head? = some c) : c.isWhitespace = false := by
  unfold trimChars at h
  rw [List.head?_reverse] at h
  by_cases hnil :
      ((l.dropWhile Char.isWhitespace).reverse.dropWhile Char.isWhitespace) = []
  · rw [hnil] at h
    cases h
  · rw [dropWhile_getLast?_of_ne_nil _ _ hnil, List.getLast?_reverse] at h
    have hnot := List.head?_dropWhile_not Char.isWhitespace l
    rw [h] at hnot
    exact hnot

theorem trimChars_getLast?_not_ws (l : List Char) (c : Char)
    (h : (trimChars l).getLast? = some c) : c.isWhitespace = false := by
  unfold trimChars at h
  rw [List.getLast?_reverse] at h
  have hnot :=
    List.head?_dropWhile_not Char.isWhitespace (l.dropWhile Char.isWhitespace).reverse
  rw [h] at hnot
  exact hnot

theorem trimChars_eq_nil_iff (l : List Char) :
    trimChars l = [] ↔ ∀ c ∈ l, c.isWhitespace = true := by
  unfold trimChars
  rw [List.reverse_eq_nil_iff, List.dropWhile_eq_nil_iff]
  constructor
  · intro h
    refine (forall_mem_dropWhile_iff Char.isWhitespace l).mp ?_
    intro a ha
    exact h a (List.mem_reverse.mpr ha)
  · intro h a ha
    exact h a (mem_of_mem_dropWhileChar (List.mem_reverse.mp ha))

theorem jsTrim_isTrimmed (s : String) : isTrimmedStr (jsTrim s) = true := by
  unfold isTrimmedStr jsTrim
  apply Bool.and_eq_true_iff.mpr
  constructor
  · cases h : (trimChars s.data).head? with
    | none => rfl
    | some c =>
      simp only [Option.all_some]
      rw [trimChars_head?_not_ws s.data c h]
      rfl
  · cases h : (trimChars s.data).getLast? with
    | none => rfl
    | some c =>
      simp only [Option.all_some]
      rw [trimChars_getLast?_not_ws s.data c h]
      rfl

theorem jsTrim_eq_empty_iff (s : String) :
    jsTrim s = "" ↔ ∀ c ∈ s.data, c.isWhitespace = true := by
  rw [← trimChars_eq_nil_iff]
  constructor
  · intro h
    have := congrArg String.data h
    exact this
  · intro h
    exact String.ext h

theorem strJoin_data (l : List String) :
    (strJoin l).data = (l.map String.data).flatten := by
  induction l with
  | nil => rfl
  | cons s rest ih => simp [strJoin_cons, String.data_append, ih]

/-- C4 amended.  Every text the handler forwards is whitespace-trimmed,
with no leading and no trailing whitespace; it is empty, rather than
guaranteed non-empty, exactly when every final segment in the scanned
range consists solely of whitespace. -/
theorem onresult_text_trimmed (idx : Nat) (results : List SpeechResult) (t : String)
    (h : onresult idx results = some t) :
    isTrimmedStr t = true ∧
      (t = "" ↔ ∀ r ∈ results.drop idx, r.isFinal = true →
        ∀ c ∈ (topTranscript r).data, c.isWhitespace = true) := by
  unfold onresult at h
  rw [foldl_final_eq] at h
  simp only [String.empty_append] at h
  by_cases hft :
      strJoin ((List.filter (fun r => r.isFinal) (results.drop idx)).map topTranscript) = ""
  · rw [if_pos hft] at h
    cases h
  · rw [if_neg hft] at h
    have ht : t = jsTrim
        (strJoin ((List.filter (fun r => r.isFinal) (results.drop idx)).map topTranscript)) :=
      (Option.some.injEq _ _ ▸ h).symm
    subst ht
    refine ⟨jsTrim_isTrimmed _, ?_⟩
    rw [jsTrim_eq_empty_iff, strJoin_data]
    constructor
    · intro hall r hr hfin c hc
      refine hall c ?_
      rw [List.mem_flatten]
      refine ⟨(topTranscript r).data, List.mem_map_of_mem String.data ?_, hc⟩
      exact List.mem_map_of_mem topTranscript (List.mem_filter.mpr ⟨hr, hfin⟩)
    · intro hall c hc
      rw [List.mem_flatten] at hc
      obtain ⟨d, hd, hcd⟩ := hc
      obtain ⟨str, hstr, rfl⟩ := List.mem_map.mp hd
      obtain ⟨r, hrf, rfl⟩ := List.mem_map.mp hstr
      have hmf := List.mem_filter.mp hrf
      exact hall r hmf.1 hmf.2 c hcd

/-- Witness for the amended C4 at a concrete result list. -/
theorem onresult_text_trimmed_witness :
    onresult 0 [{ isFinal := true, alts := [" a "] }] = some "a" ∧
      (isTrimmedStr "a" = true ∧
        ("a" = "" ↔ ∀ r ∈ ([{ isFinal := true, alts := [" a "] }] :
              List SpeechResult).drop 0, r.isFinal = true →
          ∀ c ∈ (topTranscript r).data, c.isWhitespace = true)) :=
  ⟨by rfl, onresult_text_trimmed 0 [{ isFinal := true, alts := [" a "] }] "a" (by rfl)⟩

theorem monitor_pending_step (now : Nat) (vol : ℚ) (s : DState) (pend : List Nat)
    (h : timerMatches s pend) :
    timerMatches (monitorAudioStep now vol s).1
      ((monitorAudioStep now vol s).2.foldl pendStep pend) := by
  unfold timerMatches at *
  by_cases hv : vol > SILENCE_THRESHOLD
  · cases ht : s.silenceTimer with
    | some d =>
      rw [ht] at h
      simp [monitorAudioStep, hv, ht, pendStep, h]
    | none =>
      rw [ht] at h
      simp [monitorAudioStep, hv, ht, pendStep, h]
  · cases ht : s.silenceTimer with
    | some d =>
      rw [ht] at h
      simp [monitorAudioStep, hv, ht, pendStep, h]
    | none =>
      rw [ht] at h
      simp [monitorAudioStep, hv, ht, pendStep, h]

theorem monitorRun_go_effs (samples : List (Nat × ℚ)) (s : DState) (e0 : List Effect) :
    samples.foldl
        (fun acc tv =>
          let r := monitorAudioStep tv.1 tv.2 acc.1
          (r.1, acc.2 ++ r.2)) (s, e0) =
      ((monitorRun s samples).1, e0 ++ (monitorRun s samples).2) := by
  induction samples generalizing s e0 with
  | nil => simp [monitorRun]
  | cons tv rest ih =>
    unfold monitorRun
    simp only [List.foldl_cons]
    rw [ih, ih]
    simp [List.append_assoc]

theorem monitorRun_cons (s : DState) (tv : Nat × ℚ) (rest : List (Nat × ℚ)) :
    monitorRun s (tv :: rest) =
      ((monitorRun (monitorAudioStep tv.1 tv.2 s).1 rest).1,
        (monitorAudioStep tv.1 tv.2 s).2 ++
          (monitorRun (monitorAudioStep tv.1 tv.2 s).1 rest).2) := by
  conv_lhs => unfold monitorRun
  simp only [List.foldl_cons]
  rw [monitorRun_go_effs]
  simp

theorem monitorRun_append (s : DState) (l1 l2 : List (Nat × ℚ)) :
    monitorRun s (l1 ++ l2) =
      ((monitorRun (monitorRun s l1).1 l2).1,
        (monitorRun s l1).2 ++ (monitorRun (monitorRun s l1).1 l2).2) := by
  unfold monitorRun
  rw [List.foldl_append]
  have h := monitorRun_go_effs l2 (monitorRun s l1).1 (monitorRun s l1).2
  unfold monitorRun at h
  rw [← h]

theorem monitorRun_pending (samples : List (Nat × ℚ)) :
    ∀ (s : DState) (pend : List Nat), timerMatches s pend →
      timerMatches (monitorRun s samples).1
        ((monitorRun s samples).2.foldl pendStep pend) := by
  induction samples with
  | nil =>
    intro s pend h
    simpa [monitorRun] using h
  | cons tv rest ih =>
    intro s pend h
    rw [monitorRun_cons]
    simp only [List.foldl_append]
    exact ih (monitorAudioStep tv.1 tv.2 s).1 _ (monitor_pending_step tv.1 tv.2 s pend h)

theorem monitor_above_clears_pending (now : Nat) (vol : ℚ) (s : DState)
    (pend : List Nat) (hv : vol > SILENCE_THRESHOLD) (h : timerMatches s pend) :
    (monitorAudioStep now vol s).2.foldl pendStep pend = [] := by
  unfold timerMatches at h
  cases ht : s.silenceTimer with
  | some d =>
    rw [ht] at h
    simp [monitorAudioStep, hv, ht, pendStep, h]
  | none =>
    rw [ht] at h
    simp [monitorAudioStep, hv, ht, pendStep, h]

theorem timerMatches_length (s : DState) (pend : List Nat)
    (h : timerMatches s pend) : pend.length ≤ 1 := by
  unfold timerMatches at h
  cases ht : s.silenceTimer with
  | some d => rw [ht] at h; simp [h]
  | none => rw [ht] at h; simp [h]

/-- C2.  Single-pending-timer discipline of the monitoring loop: over any
volume-sample sequence processed from a state with no pending timer, the
ledger of setTimeout and clearTimeout effects holds at most one pending
timer after every prefix, and a sample strictly above the threshold
leaves zero pending timers the moment it has been processed. -/
theorem monitor_single_timer (s0 : DState) (samples : List (Nat × ℚ))
    (h0 : s0.silenceTimer = none) :
    (∀ k, (pendingTimers (monitorRun s0 (samples.take k)).2).length ≤ 1) ∧
      (∀ k tv, samples[k]? = some tv → tv.2 > SILENCE_THRESHOLD →
        pendingTimers (monitorRun s0 (samples.take (k + 1))).2 = []) := by
  have hm0 : timerMatches s0 [] := by
    unfold timerMatches
    rw [h0]
  constructor
  · intro k
    exact timerMatches_length _ _ (monitorRun_pending (samples.take k) s0 [] hm0)
  · intro k tv hget hv
    have htake : samples.take (k + 1) = samples.take k ++ [tv] := by
      rw [List.take_succ, hget]
      rfl
    rw [htake, monitorRun_append]
    unfold pendingTimers
    rw [List.foldl_append]
    have hmid := monitorRun_pending (samples.take k) s0 [] hm0
    have hlast : monitorRun (monitorRun s0 (samples.take k)).1 [tv] =
        (((monitorAudioStep tv.1 tv.2 (monitorRun s0 (samples.take k)).1).1),
          (monitorAudioStep tv.1 tv.2 (monitorRun s0 (samples.take k)).1).2 ++ []) := by
      rw [monitorRun_cons]
      simp [monitorRun]
    rw [hlast]
    simp only [List.append_nil, List.foldl_append]
    exact monitor_above_clears_pending tv.1 tv.2 _ _ hv hmid

/-- Witness for C2 at a concrete run: three samples, quiet then loud then
quiet. -/
theorem monitor_single_timer_witness :
    mountedIdleDS.silenceTimer = none ∧
      ((∀ k,
          (pendingTimers (monitorRun mountedIdleDS
            (([(0, 0), (16, 9), (32, 2)] : List (Nat × ℚ)).take k)).2).length ≤ 1) ∧
        (∀ k tv, ([(0, 0), (16, 9), (32, 2)] : List (Nat × ℚ))[k]? = some tv →
          tv.2 > SILENCE_THRESHOLD →
          pendingTimers (monitorRun mountedIdleDS
            (([(0, 0), (16, 9), (32, 2)] : List (Nat × ℚ)).take (k + 1))).2 = [])) :=
  ⟨rfl, monitor_single_timer mountedIdleDS [(0, 0), (16, 9), (32, 2)] rfl⟩

theorem monitor_frame_some (now : Nat) (vol : ℚ) (s : DState) :
    (monitorAudioStep now vol s).1.animationFrame = some (now + 1) := rfl

theorem monitor_quiet_keep (now : Nat) (vol : ℚ) (s : DState) (d : Nat)
    (hv : ¬vol > SILENCE_THRESHOLD) (h : s.silenceTimer = some d) :
    (monitorAudioStep now vol s).1.silenceTimer = some d := by
  simp [monitorAudioStep, hv, h]

theorem monitor_quiet_arm (now : Nat) (vol : ℚ) (s : DState)
    (hv : ¬vol > SILENCE_THRESHOLD) (h : s.silenceTimer = none) :
    (monitorAudioStep now vol s).1.silenceTimer =
      some (now + SILENCE_DURATION_MS) := by
  simp [monitorAudioStep, hv, h]

theorem monitor_above_clear (now : Nat) (vol : ℚ) (s : DState)
    (hv : vol > SILENCE_THRESHOLD) :
    (monitorAudioStep now vol s).1.silenceTimer = none := by
  cases h : s.silenceTimer <;> simp [monitorAudioStep, hv, h]

theorem fireIfDue_no_timer (t : Nat) (sim : Sim) (h : sim.ds.silenceTimer = none) :
    fireIfDue t sim = sim := by
  simp [fireIfDue, h]

theorem fireIfDue_early (t d : Nat) (sim : Sim) (h : sim.ds.silenceTimer = some d)
    (hlt : t < d) : fireIfDue t sim = sim := by
  have hn : ¬d ≤ t := by omega
  simp [fireIfDue, h, hn]

theorem fireIfDue_due (t d : Nat) (sim : Sim) (h : sim.ds.silenceTimer = some d)
    (hle : d ≤ t) :
    fireIfDue t sim =
      { ds := (stopDictation sim.ds).1, stopRuns := sim.stopRuns + 1 } := by
  simp [fireIfDue, h, hle]

theorem runSim_cons (sim : Sim) (tv : Nat × ℚ) (rest : List (Nat × ℚ)) :
    runSim sim (tv :: rest) = runSim (simStep tv sim) rest := rfl

theorem runSim_append (sim : Sim) (l1 l2 : List (Nat × ℚ)) :
    runSim sim (l1 ++ l2) = runSim (runSim sim l1) l2 := by
  unfold runSim
  rw [List.foldl_append]

theorem runSim_dead (ticks : List (Nat × ℚ)) :
    ∀ sim : Sim, sim.ds.silenceTimer = none → sim.ds.animationFrame = none →
      runSim sim ticks = sim := by
  induction ticks with
  | nil => intro sim _ _; rfl
  | cons tv rest ih =>
    intro sim h1 h2
    rw [runSim_cons]
    have hstep : simStep tv sim = sim := by
      simp [simStep, fireIfDue_no_timer tv.1 sim h1, h2]
    rw [hstep]
    exact ih sim h1 h2

theorem runSim_quiet (ticks : List (Nat × ℚ)) :
    ∀ (sim : Sim) (d : Nat), sim.ds.silenceTimer = some d →
      sim.ds.animationFrame.isSome = true →
      (∀ p ∈ ticks, p.2 ≤ SILENCE_THRESHOLD) → (∀ p ∈ ticks, p.1 < d) →
      (runSim sim ticks).ds.silenceTimer = some d ∧
        (runSim sim ticks).ds.animationFrame.isSome = true ∧
        (runSim sim ticks).stopRuns = sim.stopRuns := by
  induction ticks with
  | nil => intro sim d h1 h2 _ _; exact ⟨h1, h2, rfl⟩
  | cons tv rest ih =>
    intro sim d h1 h2 hq ht
    rw [runSim_cons]
    have hfire : fireIfDue tv.1 sim = sim :=
      fireIfDue_early tv.1 d sim h1 (ht tv (List.mem_cons_self tv rest))
    have hstep : simStep tv sim =
        { sim with ds := (monitorAudioStep tv.1 tv.2 sim.ds).1 } := by
      simp [simStep, hfire, h2]
    rw [hstep]
    have hv : ¬tv.2 > SILENCE_THRESHOLD :=
      not_lt.mpr (hq tv (List.mem_cons_self tv rest))
    exact ih _ d (monitor_quiet_keep tv.1 tv.2 sim.ds d hv h1)
      (by simp [monitor_frame_some])
      (fun p hp => hq p (List.mem_cons_of_mem tv hp))
      (fun p hp => ht p (List.mem_cons_of_mem tv hp))

/-- C5.  A sample sequence that starts quiet and stays at or below the
threshold, with tick time spanning at least the silence duration,
drives the session to a single timer-fired stop: the armed timer fires
exactly once, the state ends not dictating, and both the animation frame
and the timer slot end null, so no further ticks run. -/
theorem silence_triggers_stop (sim0 : Sim) (t0 : Nat) (v0 : ℚ)
    (rest : List (Nat × ℚ))
    (h0t : sim0.ds.silenceTimer = none)
    (h0f : sim0.ds.animationFrame.isSome = true)
    (h0s : sim0.stopRuns = 0)
    (_hchain : List.Chain' (fun a b => a.1 < b.1) ((t0, v0) :: rest))
    (hq : ∀ p ∈ (t0, v0) :: rest, p.2 ≤ SILENCE_THRESHOLD)
    (hspan : ∃ p ∈ rest, t0 + SILENCE_DURATION_MS ≤ p.1) :
    (runSim sim0 ((t0, v0) :: rest)).stopRuns = 1 ∧
      (runSim sim0 ((t0, v0) :: rest)).ds.isDictating = false ∧
      (runSim sim0 ((t0, v0) :: rest)).ds.animationFrame = none ∧
      (runSim sim0 ((t0, v0) :: rest)).ds.silenceTimer = none := by
  have hv0 : ¬v0 > SILENCE_THRESHOLD :=
    not_lt.mpr (hq (t0, v0) (List.mem_cons_self _ _))
  rw [runSim_cons]
  have hstep0 : simStep (t0, v0) sim0 =
      { sim0 with ds := (monitorAudioStep t0 v0 sim0.ds).1 } := by
    simp [simStep, fireIfDue_no_timer t0 sim0 h0t, h0f]
  rw [hstep0]
  set sim1 : Sim := { sim0 with ds := (monitorAudioStep t0 v0 sim0.ds).1 } with hsim1
  have hsim1t : sim1.ds.silenceTimer = some (t0 + SILENCE_DURATION_MS) := by
    rw [hsim1]
    exact monitor_quiet_arm t0 v0 sim0.ds hv0 h0t
  have hsim1f : sim1.ds.animationFrame.isSome = true := by
    rw [hsim1]
    simp [monitor_frame_some]
  have hsim1r : sim1.stopRuns = 0 := by
    rw [hsim1]
    exact h0s
  have hsplit := List.takeWhile_append_dropWhile
    (p := fun tp : Nat × ℚ => decide (tp.1 < t0 + SILENCE_DURATION_MS)) (l := rest)
  have hne : rest.dropWhile
      (fun tp : Nat × ℚ => decide (tp.1 < t0 + SILENCE_DURATION_MS)) ≠ [] := by
    intro hnil
    obtain ⟨p, hp, hdp⟩ := hspan
    have hall := List.dropWhile_eq_nil_iff.mp hnil p hp
    have := of_decide_eq_true hall
    omega
  obtain ⟨q, B, hqB⟩ := List.exists_cons_of_ne_nil hne
  have hqge : t0 + SILENCE_DURATION_MS ≤ q.1 := by
    have hnot := List.head?_dropWhile_not
      (fun tp : Nat × ℚ => decide (tp.1 < t0 + SILENCE_DURATION_MS)) rest
    rw [hqB] at hnot
    simp only [List.head?_cons] at hnot
    have := of_decide_eq_false hnot
    omega
  have hA_lt : ∀ x ∈ rest.takeWhile
      (fun tp : Nat × ℚ => decide (tp.1 < t0 + SILENCE_DURATION_MS)),
      x.1 < t0 + SILENCE_DURATION_MS := by
    intro x hx
    have h1 := List.mem_takeWhile_imp
      (p := fun tp : Nat × ℚ => decide (tp.1 < t0 + SILENCE_DURATION_MS)) hx
    simpa using h1
  have hA_q : ∀ x ∈ rest.takeWhile
      (fun tp : Nat × ℚ => decide (tp.1 < t0 + SILENCE_DURATION_MS)),
      x.2 ≤ SILENCE_THRESHOLD :=
    fun x hx => hq x (List.mem_cons_of_mem _
      ((List.takeWhile_prefix
        (fun tp : Nat × ℚ => decide (tp.1 < t0 + SILENCE_DURATION_MS))).subset hx))
  rw [← hsplit, hqB, runSim_append, runSim_cons]
  obtain ⟨hA1, hA2, hA3⟩ := runSim_quiet
    (rest.takeWhile (fun tp : Nat × ℚ => decide (tp.1 < t0 + SILENCE_DURATION_MS)))
    sim1 (t0 + SILENCE_DURATION_MS) hsim1t hsim1f hA_q hA_lt
  set sim2 : Sim := runSim sim1
    (rest.takeWhile (fun tp : Nat × ℚ => decide (tp.1 < t0 + SILENCE_DURATION_MS)))
    with hsim2
  have hstepq : simStep q sim2 =
      { ds := (stopDictation sim2.ds).1, stopRuns := sim2.stopRuns + 1 } := by
    unfold simStep
    rw [fireIfDue_due q.1 (t0 + SILENCE_DURATION_MS) sim2 hA1 hqge]
    simp [stop_frame]
  rw [hstepq]
  have hdead := runSim_dead B
    { ds := (stopDictation sim2.ds).1, stopRuns := sim2.stopRuns + 1 }
    (stop_timer sim2.ds) (stop_frame sim2.ds)
  rw [hdead]
  refine ⟨?_, stop_isDictating sim2.ds, stop_frame sim2.ds, stop_timer sim2.ds⟩
  show sim2.stopRuns + 1 = 1
  rw [hA3, hsim1r]

/-- Witness for C5: three quiet ticks spanning exactly the silence
duration from a concrete Active simulation state. -/
theorem silence_triggers_stop_witness :
    activeSim.ds.silenceTimer = none ∧
      activeSim.ds.animationFrame.isSome = true ∧
      activeSim.stopRuns = 0 ∧
      List.Chain' (fun a b => a.1 < b.1)
        (((0, 0) : Nat × ℚ) :: [((1000 : Nat), (0 : ℚ)), (2000, 0)]) ∧
      (∀ p ∈ ((0, 0) : Nat × ℚ) :: [((1000 : Nat), (0 : ℚ)), (2000, 0)],
        p.2 ≤ SILENCE_THRESHOLD) ∧
      (∃ p ∈ ([((1000 : Nat), (0 : ℚ)), (2000, 0)] : List (Nat × ℚ)),
        0 + SILENCE_DURATION_MS ≤ p.1) ∧
      ((runSim activeSim
          (((0, 0) : Nat × ℚ) :: [((1000 : Nat), (0 : ℚ)), (2000, 0)])).stopRuns = 1 ∧
        (runSim activeSim
          (((0, 0) : Nat × ℚ) :: [((1000 : Nat), (0 : ℚ)), (2000, 0)])).ds.isDictating
            = false ∧
        (runSim activeSim
          (((0, 0) : Nat × ℚ) :: [((1000 : Nat), (0 : ℚ)), (2000, 0)])).ds.animationFrame
            = none ∧
        (runSim activeSim
          (((0, 0) : Nat × ℚ) :: [((1000 : Nat), (0 : ℚ)), (2000, 0)])).ds.silenceTimer
            = none) :=
  ⟨rfl, rfl, rfl,
    by refine List.chain'_cons.mpr ⟨?_, List.chain'_cons.mpr
         ⟨?_, List.chain'_singleton _⟩⟩ <;> norm_num,
    by decide, ⟨(2000, 0), by decide, by decide⟩,
    silence_triggers_stop activeSim 0 0 [((1000 : Nat), (0 : ℚ)), (2000, 0)]
      rfl rfl rfl
      (by refine List.chain'_cons.mpr ⟨?_, List.chain'_cons.mpr
            ⟨?_, List.chain'_singleton _⟩⟩ <;> norm_num)
      (by decide) ⟨(2000, 0), by decide, by decide⟩⟩

theorem altTicks_succ (phase : Bool) (n : Nat) :
    altTicks phase (n + 1) =
      altTicks phase n ++ [(1000 * n, altVol phase n)] := by
  unfold altTicks
  rw [List.range_succ, List.map_append]
  rfl

theorem altVol_succ_above (phase : Bool) (k : Nat)
    (h : altVol phase k ≤ SILENCE_THRESHOLD) :
    altVol phase (k + 1) > SILENCE_THRESHOLD := by
  have hm1 : (k + 1) % 2 = 1 - k % 2 := by omega
  rcases Nat.mod_two_eq_zero_or_one k with hm | hm <;> cases phase <;>
    simp only [altVol, SILENCE_THRESHOLD, hm, hm1, Nat.sub_zero, Nat.sub_self] at * <;>
      first
        | (exfalso; revert h; decide)
        | decide

theorem runSim_alt_inv (phase : Bool) (sim0 : Sim)
    (h0t : sim0.ds.silenceTimer = none)
    (h0f : sim0.ds.animationFrame.isSome = true)
    (h0s : sim0.stopRuns = 0) :
    ∀ n : Nat,
      (runSim sim0 (altTicks phase n)).stopRuns = 0 ∧
        (runSim sim0 (altTicks phase n)).ds.isDictating = sim0.ds.isDictating ∧
        (runSim sim0 (altTicks phase n)).ds.animationFrame.isSome = true ∧
        ((runSim sim0 (altTicks phase n)).ds.silenceTimer = none ∨
          ∃ m, n = m + 1 ∧ altVol phase m ≤ SILENCE_THRESHOLD ∧
            (runSim sim0 (altTicks phase n)).ds.silenceTimer =
              some (1000 * m + SILENCE_DURATION_MS)) := by
  intro n
  induction n with
  | zero => exact ⟨h0s, rfl, h0f, Or.inl h0t⟩
  | succ n ih =>
    obtain ⟨i1, i2, i3, i4⟩ := ih
    rw [altTicks_succ, runSim_append, runSim_cons]
    rcases i4 with h4 | ⟨m, rfl, hmq, h4⟩
    · have hfire : fireIfDue (1000 * n, altVol phase n).1
          (runSim sim0 (altTicks phase n)) = runSim sim0 (altTicks phase n) :=
        fireIfDue_no_timer _ _ h4
      have hstep : simStep (1000 * n, altVol phase n)
          (runSim sim0 (altTicks phase n)) =
          { runSim sim0 (altTicks phase n) with
            ds := (monitorAudioStep (1000 * n) (altVol phase n)
              (runSim sim0 (altTicks phase n)).ds).1 } := by
        simp [simStep, hfire, i3]
      rw [hstep]
      by_cases hv : altVol phase n > SILENCE_THRESHOLD
      · exact ⟨i1, i2, rfl, Or.inl (monitor_above_clear _ _ _ hv)⟩
      · exact ⟨i1, i2, rfl,
          Or.inr ⟨n, rfl, not_lt.mp hv, monitor_quiet_arm _ _ _ hv h4⟩⟩
    · have hfire : fireIfDue (1000 * (m + 1), altVol phase (m + 1)).1
          (runSim sim0 (altTicks phase (m + 1))) =
          runSim sim0 (altTicks phase (m + 1)) := by
        refine fireIfDue_early _ (1000 * m + SILENCE_DURATION_MS) _ h4 ?_
        simp only [SILENCE_DURATION_MS]
        omega
      have hstep : simStep (1000 * (m + 1), altVol phase (m + 1))
          (runSim sim0 (altTicks phase (m + 1))) =
          { runSim sim0 (altTicks phase (m + 1)) with
            ds := (monitorAudioStep (1000 * (m + 1)) (altVol phase (m + 1))
              (runSim sim0 (altTicks phase (m + 1))).ds).1 } := by
        simp [simStep, hfire, i3]
      rw [hstep]
      have hv : altVol phase (m + 1) > SILENCE_THRESHOLD :=
        altVol_succ_above phase m hmq
      exact ⟨i1, i2, rfl, Or.inl (monitor_above_clear _ _ _ hv)⟩

/-- C6.  With volumes alternating above and below the threshold every
1000 ms, in either phase and for any length, the session never
auto-stops: the timer never fires and the state stays dictating, every
armed timer being cancelled by the next above-threshold sample 1000 ms
later, before its 2000 ms deadline. -/
theorem speech_resets_timer (phase : Bool) (n : Nat) (sim0 : Sim)
    (h0t : sim0.ds.silenceTimer = none)
    (h0f : sim0.ds.animationFrame.isSome = true)
    (h0s : sim0.stopRuns = 0)
    (h0d : sim0.ds.isDictating = true) :
    (runSim sim0 (altTicks phase n)).stopRuns = 0 ∧
      (runSim sim0 (altTicks phase n)).ds.isDictating = true := by
  obtain ⟨i1, i2, _, _⟩ := runSim_alt_inv phase sim0 h0t h0f h0s n
  exact ⟨i1, i2.trans h0d⟩

/-- Witness for C6 at a concrete Active simulation state over four
alternating ticks. -/
theorem speech_resets_timer_witness :
    activeSim.ds.silenceTimer = none ∧
      activeSim.ds.animationFrame.isSome = true ∧
      activeSim.stopRuns = 0 ∧
      activeSim.ds.isDictating = true ∧
      ((runSim activeSim (altTicks true 4)).stopRuns = 0 ∧
        (runSim activeSim (altTicks true 4)).ds.isDictating = true) :=
  ⟨rfl, rfl, rfl, rfl, speech_resets_timer true 4 activeSim rfl rfl rfl rfl⟩

end DictationButton
